import Mathlib

/-!
Verification development for the folder-upload pipeline
(`R2R/scripts/r2r_folder_upload.py`) and the prompt-rewriting hook
(`vLLM Host/custom_prompt.py`).

The Python code is shallowly embedded: network responses are oracles
(inductive types enumerating the response shapes the code probes), the
asynchronous orchestrator becomes a fold over the completion-ordered list
of upload results plus an event-trace model of its two control-flow
phases, and the mutated accumulator dictionaries become explicit state
records threaded through folds.
-/

/-! ## Generic string helpers (embedding Python `str` operations) -/

/-- Python `needle in hay` check on character lists, prefix test part. -/
def isPrefixList : List Char → List Char → Bool
  | [], _ => true
  | _ :: _, [] => false
  | a :: as, b :: bs => a == b && isPrefixList as bs

/-- Python substring containment `needle in hay` on character lists. -/
def hasSub (needle : List Char) : List Char → Bool
  | [] => needle.isEmpty
  | c :: rest => isPrefixList needle (c :: rest) || hasSub needle rest

/-- Python `s.startswith(p)`. -/
def startsWithStr (s p : String) : Bool := isPrefixList p.data s.data

/-- Python `s.lower()` (ASCII case folding, as used on file extensions). -/
def lowerStr (s : String) : String := ⟨s.data.map Char.toLower⟩

/-! ## Embedding of `custom_prompt.py` (QwenNoThinkLogger) -/

/-- A chat message dict with role and content entries
(`message.get("role")`, `message.get('content', '')`). -/
structure Message where
  role : String
  content : String
deriving DecidableEq

/-- The in-place update `messages[i]["content"] = f"/no_think {original_content}"`. -/
def withNoThink (m : Message) : Message := ⟨m.role, "/no_think " ++ m.content⟩

/-- The loop guard of lines 61-65: a user-role message whose content does not
already start with the no-think marker. -/
def needsNoThink (m : Message) : Bool :=
  m.role == "user" && !(startsWithStr m.content "/no_think")

/-- Embeds the message-rewriting loop of `QwenNoThinkLogger.log_pre_api_call`
(lines 61-66, and identically lines 41-46) on the FAST_LLM path: iterate over
the messages; at a user message the content is prefixed and the loop breaks
only when the content does not already start with the marker — an
already-prefixed user message does not break the loop, so iteration continues
past it. Non-FAST_LLM calls leave the list untouched and are not modelled. -/
def log_pre_api_call : List Message → List Message
  | [] => []
  | m :: ms =>
    if needsNoThink m then withNoThink m :: ms else m :: log_pre_api_call ms

/-! ## Embedding of upload_file (r2r_folder_upload.py lines 130-224) -/

/-- The observed outcome of the `documents.create` call dance (lines 147-180;
the keyword-argument retry at 163-180 collapses into the single response that
finally reaches the surrounding logic): either a success response from which
a document id may or may not be extractable (lines 182-192, with the falsy
check of line 194 represented by an empty string), or an exception reaching
the handler at line 207. -/
inductive ServiceResp where
  | ok (document_id : Option String)
  | err (msg : String)
deriving DecidableEq

/-- The per-file result dict built by `upload_file`. -/
structure UploadResult where
  file_id : Nat
  upload_status : String
  document_id : Option String
  error : Option String
deriving DecidableEq

/-- Python truthiness of the extracted document id (line 194 `if document_id:`). -/
def truthy : Option String → Bool
  | none => false
  | some s => !s.isEmpty

/-- Embeds `upload_file` lines 182-224: success with a truthy document id,
failure when no id can be extracted, skipped on a duplicate-content error
(line 211 substring check), failure with the error string otherwise.  The
function is total: no exception escapes the stage. -/
def upload_file (i : Nat) (resp : ServiceResp) : UploadResult :=
  match resp with
  | .ok docId =>
    if truthy docId then ⟨i, "success", docId, none⟩
    else ⟨i, "failed", none, some ("Could not extract document ID")⟩
  | .err msg =>
    if hasSub ("already exists".data) msg.data then
      ⟨i, "skipped", none, some ("Document already exists")⟩
    else ⟨i, "failed", none, some msg⟩

/-- The shared `self.upload_stats` dictionary of lists. -/
structure UploadStats where
  uploaded : List UploadResult
  failed : List UploadResult
  skipped : List UploadResult
deriving DecidableEq

/-- One lock-protected append of an upload result into `self.upload_stats`
(lines 199-200, 204-205, 215-216, 221-222): exactly one bucket receives it,
selected by the branch that produced the result. -/
def recordUpload (s : UploadStats) (r : UploadResult) : UploadStats :=
  if r.upload_status == "success" then
    ⟨s.uploaded ++ [r], s.failed, s.skipped⟩
  else if r.upload_status == "skipped" then
    ⟨s.uploaded, s.failed, s.skipped ++ [r]⟩
  else
    ⟨s.uploaded, s.failed ++ [r], s.skipped⟩

/-! ## Embedding of extract_entities (lines 226-293) -/

/-- The `results` attribute object probed at lines 255-260. A field value
`none` means the attribute is absent; `some n` is the entity or relationship
count obtained (Python `len(x) if x else 0` maps falsy values to 0). -/
structure ResultsObj where
  entities : Option Nat
  relationships : Option Nat
deriving DecidableEq

/-- A successful `documents.extract` response as probed by lines 254-270:
optional `results` attribute, optional top-level `entities` and
`relationships` attributes, whether a `message` attribute exists, and whether
the stringified response contains the word success. -/
structure ExtractOk where
  results : Option ResultsObj
  entities : Option Nat
  relationships : Option Nat
  has_message : Bool
  str_has_success : Bool
deriving DecidableEq

/-- Outcome of the `documents.extract` call: a response object, or an
exception reaching the handler at line 285. -/
inductive ExtResp where
  | ok (r : ExtractOk)
  | raised (msg : String)
deriving DecidableEq

/-- The counting logic of lines 250-270, including the placeholder branch of
lines 266-270: when both counts are zero but the response has a `message`
attribute or its string form mentions success, the entity count is set to 1. -/
def countsOf (r : ExtractOk) : Nat × Nat :=
  let base :=
    match r.results with
    | some ro => (ro.entities.getD 0, ro.relationships.getD 0)
    | none =>
      match r.entities with
      | some e => (e, 0)
      | none =>
        match r.relationships with
        | some rel => (0, rel)
        | none => (0, 0)
  if base.1 == 0 && base.2 == 0 && (r.has_message || r.str_has_success) then
    (1, 0)
  else base

/-- The per-document result dict built by `extract_entities`. -/
structure ExtractionResult where
  document_id : Option String
  file_id : Nat
  extraction_status : String
  entities_count : Nat
  relationships_count : Nat
  error : Option String
deriving DecidableEq

/-- Embeds `extract_entities` lines 242-293: on a response the result is a
success carrying the probed counts; on an exception the result is a failure
with zero counts (the counts of line 237-238 are never overwritten). -/
def extract_entities (u : UploadResult) (resp : ExtResp) : ExtractionResult :=
  match resp with
  | .ok r => ⟨u.document_id, u.file_id, "success", (countsOf r).1, (countsOf r).2, none⟩
  | .raised msg => ⟨u.document_id, u.file_id, "failed", 0, 0, some msg⟩

/-- The shared `self.extraction_results` accumulator. -/
structure ExtractionResults where
  successful : List ExtractionResult
  failed : List ExtractionResult
  total_entities : Nat
  total_relationships : Nat
deriving DecidableEq

/-- One lock-protected recording of an extraction result (lines 280-283 on
success: totals grow by that document's counts and the result joins the
successful list; lines 290-291 on failure: the result joins the failed list
and the totals are untouched). -/
def recordExtraction (s : ExtractionResults) (r : ExtractionResult) : ExtractionResults :=
  if r.extraction_status == "success" then
    ⟨s.successful ++ [r], s.failed,
      s.total_entities + r.entities_count,
      s.total_relationships + r.relationships_count⟩
  else
    ⟨s.successful, s.failed ++ [r], s.total_entities, s.total_relationships⟩

/-! ## Embedding of upload_files_concurrently (lines 295-362)

The orchestrator is modelled on the completion-ordered list of per-file
oracles: `asyncio.as_completed` yields upload results in completion order, so
taking that order as the input list loses no generality.  The aggregator lock
serializes all state updates, so the final state is a fold over the results
in the order the lock was acquired; for extraction recordings that order is
an arbitrary permutation of the created extraction tasks and theorems take it
as a parameter. -/

/-- The per-file oracle data for one run: the file's index in the run, its
upload response, and its extraction response (consulted only if extraction is
attempted for it). -/
structure FileSpec where
  id : Nat
  uresp : ServiceResp
  eresp : ExtResp
deriving DecidableEq

/-- The upload results in completion order. -/
def uploadResults (files : List FileSpec) : List UploadResult :=
  files.map (fun f => upload_file f.id f.uresp)

/-- Final contents of `self.upload_stats` after all uploads completed. -/
def uploadStatsOf (files : List FileSpec) : UploadStats :=
  (uploadResults files).foldl recordUpload ⟨[], [], []⟩

/-- The filter of line 324: an extraction task is created for an upload
result exactly when its status is success and its document id is truthy. -/
def successfulUploads (files : List FileSpec) : List FileSpec :=
  files.filter (fun f =>
    (upload_file f.id f.uresp).upload_status == "success"
      && truthy (upload_file f.id f.uresp).document_id)

/-- Final contents of `self.extraction_results` after the gather of line 337,
folded in the order the aggregator lock was acquired (`etasks`). -/
def extractionResultsOf (etasks : List FileSpec) : ExtractionResults :=
  (etasks.map (fun f => extract_entities (upload_file f.id f.uresp) f.eresp)).foldl
    recordExtraction ⟨[], [], 0, 0⟩

/-! ### Event-trace model of the orchestrator's control flow

`upload_files_concurrently` has two phases.  In the `as_completed` loop
(lines 320-332) upload results arrive one by one; line 328 merely calls the
async function `extract_entities`, which in Python creates a coroutine object
without scheduling it, so no extraction work runs during this phase.  All
extraction coroutines are first scheduled — and run to completion — inside
`asyncio.gather` (line 337), after which the summary is printed and the
function returns.  A run trace is therefore the upload-completion events,
followed by some interleaving of the extraction events, followed by the
summary. -/

/-- Observable events of one orchestrator run. -/
inductive Event where
  | uploadDone (i : Nat)
  | extractStart (i : Nat)
  | extractDone (i : Nat)
  | summary
deriving DecidableEq

/-- Upload-completion events of the `as_completed` loop, in completion
order. -/
def uploadEvents (files : List FileSpec) : List Event :=
  files.map (fun f => Event.uploadDone f.id)

/-- File ids whose extraction started, in trace order. -/
def startIds (evs : List Event) : List Nat :=
  evs.filterMap (fun e =>
    match e with
    | .extractStart i => some i
    | _ => none)

/-- File ids whose extraction reached a terminal state, in trace order. -/
def doneIds (evs : List Event) : List Nat :=
  evs.filterMap (fun e =>
    match e with
    | .extractDone i => some i
    | _ => none)

/-- Whether an event belongs to the extraction phase. -/
def isExtractionEvent : Event → Bool
  | .extractStart _ => true
  | .extractDone _ => true
  | _ => false

/-- Admissible interleavings of the extraction phase for the created task
ids: only extraction events occur, and each task contributes exactly one
start and one terminal event.  This over-approximates the schedules the
extraction semaphore permits, so properties proved for every admissible
interleaving hold for every real schedule. -/
structure ValidExtrEvents (taskIds : List Nat) (evs : List Event) : Prop where
  only_extraction : ∀ e ∈ evs, isExtractionEvent e = true
  starts : (startIds evs).Perm taskIds
  dones : (doneIds evs).Perm taskIds

/-- The full trace of one run of `upload_files_concurrently`: the upload
phase, then the extraction phase, then the summary (lines 339-362). -/
def pipelineTrace (files : List FileSpec) (evs : List Event) : List Event :=
  uploadEvents files ++ (evs ++ [Event.summary])

/-! ## Embedding of discover_files (lines 80-94) -/

/-- A filesystem subtree as seen by `Path.rglob`. -/
inductive PyTree where
  | file (name : String)
  | dir (name : String) (children : List PyTree)

/-- What the configured folder path refers to. -/
inductive RootFS where
  | missing
  | plainFile
  | dir (children : List PyTree)

/-- The errors raised at lines 83-87. -/
inductive DiscoverError where
  | fileNotFound (msg : String)
  | valueError (msg : String)
deriving DecidableEq

mutual

/-- All descendant paths of a node together with a regular-file flag, as
enumerated by `rglob('*')`; paths are component lists below the root. -/
def rglobNode (pre : List String) : PyTree → List (List String × Bool)
  | .file n => [(pre ++ [n], true)]
  | .dir n cs => (pre ++ [n], false) :: rglobList (pre ++ [n]) cs

/-- `rglobNode` over a list of sibling nodes. -/
def rglobList (pre : List String) : List PyTree → List (List String × Bool)
  | [] => []
  | t :: ts => rglobNode pre t ++ rglobList pre ts

end

/-- Index of the last dot in a character list (Python `name.rfind('.')`). -/
def lastDotIdx : List Char → Option Nat
  | [] => none
  | c :: cs =>
    match lastDotIdx cs with
    | some i => some (i + 1)
    | none => if c == '.' then some 0 else none

/-- `pathlib.PurePath.suffix` of a file name: the part from the last dot,
provided that dot is neither the first nor the last character. -/
def pySuffix (name : String) : String :=
  match lastDotIdx name.data with
  | none => ""
  | some i =>
    if 0 < i && i + 1 < name.data.length then ⟨name.data.drop i⟩ else ""

/-- The extension allow-list of lines 43-56. -/
def SUPPORTED_EXTENSIONS : List String :=
  [".txt", ".md", ".rtf",
   ".pdf",
   ".json", ".jsonl",
   ".csv", ".tsv",
   ".docx", ".doc",
   ".pptx", ".ppt",
   ".xlsx", ".xls",
   ".png", ".jpg", ".jpeg", ".gif",
   ".mp3", ".wav", ".m4a",
   ".mp4", ".avi", ".mov",
   ".html", ".htm",
   ".xml"]

/-- The extension filter of line 91: the lower-cased suffix of the final
path component is in the allow-list. -/
def isSupported (p : List String) : Bool :=
  SUPPORTED_EXTENSIONS.contains (lowerStr (pySuffix (p.getLastD "")))

/-- The filter of line 91 on an `rglob` entry: a regular file with a
supported extension. -/
def isEligible (pb : List String × Bool) : Bool :=
  pb.2 && isSupported pb.1

/-- The slash-joined path string, the sort key of line 94 (`sorted` on
`Path` objects compares the path strings). -/
def joinPath (p : List String) : String := String.intercalate "/" p

/-- Lexicographic code-point comparison of character lists (an executable
form of the order underlying String comparison). -/
def charListLe : List Char → List Char → Bool
  | [], _ => true
  | _ :: _, [] => false
  | a :: as, b :: bs =>
    if a < b then true
    else if b < a then false
    else charListLe as bs

/-- Boolean path comparison by code points on the joined path. -/
def pathLeB (a b : List String) : Bool :=
  charListLe (joinPath a).data (joinPath b).data

/-- Insertion into a sorted list, the building block of the model of
`sorted(files)`. -/
def insertLe {α : Type} (le : α → α → Bool) (x : α) : List α → List α
  | [] => [x]
  | y :: ys => if le x y then x :: y :: ys else y :: insertLe le x ys

/-- Model of Python `sorted` as insertion sort (only the sortedness and
permutation properties of `sorted` are relied upon). -/
def sortLe {α : Type} (le : α → α → Bool) : List α → List α
  | [] => []
  | x :: xs => insertLe le x (sortLe le xs)

/-- Embeds `discover_files` lines 80-94: missing path and non-directory path
raise; otherwise every regular file under the root with a supported
extension is returned, sorted by path. -/
def discover_files (folder_path : String) (fs : RootFS) :
    Except DiscoverError (List (List String)) :=
  match fs with
  | .missing => .error (.fileNotFound ("Folder not found: " ++ folder_path))
  | .plainFile => .error (.valueError ("Path is not a directory: " ++ folder_path))
  | .dir children =>
    .ok (sortLe pathLeB (((rglobList [] children).filter isEligible).map Prod.fst))

/-! ## Embedding of create_knowledge_graph (lines 512-586) and
run_complete_workflow (lines 588-646) -/

/-- Outcome of one listing call as probed by lines 529-567: the call raised
(caught at 536-538 or 547-549 and replaced by an empty list), a response
object with a `results` attribute (`none` for a falsy value), a dict, a
plain list, or some other shape none of the probes match.  Numeric fields
are the lengths the code would take. -/
inductive ListingResp where
  | raised (msg : String)
  | withResults (results : Option Nat)
  | asDict (n : Nat)
  | asList (n : Nat)
  | otherShape
deriving DecidableEq

/-- The count extraction of lines 551-567 applied to one listing outcome. -/
def countListing : ListingResp → Nat
  | .raised _ => 0
  | .withResults none => 0
  | .withResults (some n) => n
  | .asDict n => n
  | .asList n => n
  | .otherShape => 0

/-- The dict returned by `create_knowledge_graph`: lines 569-573 on normal
completion (status is always the string created, line 572), lines 584-586
when the body itself raises. -/
structure GraphStats where
  entities : Option Nat
  relationships : Option Nat
  status : String
  error : Option String
deriving DecidableEq

/-- Embeds `create_knowledge_graph`: listing failures are swallowed inside
the body (the counts fall back to zero), and only an exception of the body
itself (`outerExc`, the handler at lines 584-586) produces a failed
status. -/
def create_knowledge_graph (outerExc : Option String) (ent rel : ListingResp) :
    GraphStats :=
  match outerExc with
  | some msg => ⟨none, none, "failed", some msg⟩
  | none => ⟨some (countListing ent), some (countListing rel), "created", none⟩

/-- The record returned by `run_complete_workflow`. -/
structure WorkflowResult where
  status : String
  graph : Option GraphStats
deriving DecidableEq

/-- Embeds the status determination of `run_complete_workflow` lines 598-646
from the pipeline stage on: no files found, collection error, nothing
uploaded, else success — with the graph stats of the step at line 619
carried in the result but never consulted for the status. -/
def run_complete_workflow (collectionOk : Bool) (files : List FileSpec)
    (gOuter : Option String) (gEnt gRel : ListingResp) : WorkflowResult :=
  if files.isEmpty then ⟨"no_files_found", none⟩
  else if !collectionOk then ⟨"collection_error", none⟩
  else if (successfulUploads files).isEmpty then ⟨"upload_failed", none⟩
  else ⟨"success", some (create_knowledge_graph gOuter gEnt gRel)⟩

/-! ## Concrete run fixtures used by witnesses and counterexamples -/

/-- A file whose upload succeeds with document id d0. -/
def fileA : FileSpec :=
  ⟨0, ServiceResp.ok (some ("d0")), ExtResp.ok ⟨none, some 2, none, false, false⟩⟩

/-- A second file whose upload succeeds with document id d1. -/
def fileB : FileSpec :=
  ⟨1, ServiceResp.ok (some ("d1")), ExtResp.ok ⟨none, some 3, none, false, false⟩⟩

/-- A file whose upload hits the duplicate-content error. -/
def fileDup : FileSpec :=
  ⟨2, ServiceResp.err ("Document with this content already exists"),
    ExtResp.ok ⟨none, none, none, false, false⟩⟩

/-- A file whose upload succeeds but yields no extractable document id. -/
def fileNoId : FileSpec :=
  ⟨3, ServiceResp.ok none, ExtResp.ok ⟨none, none, none, false, false⟩⟩

/-- A file whose extraction call raises. -/
def fileExtFail : FileSpec :=
  ⟨4, ServiceResp.ok (some ("d4")), ExtResp.raised ("extract timeout")⟩

/-- Completion-ordered fixture run mixing all upload outcomes. -/
def filesMix : List FileSpec := [fileA, fileDup, fileNoId, fileB, fileExtFail]

/-- A sequential extraction-phase interleaving for `filesMix`. -/
def evsMix : List Event :=
  [Event.extractStart 0, Event.extractDone 0,
   Event.extractStart 1, Event.extractDone 1,
   Event.extractStart 4, Event.extractDone 4]

/-- An extraction-phase interleaving for the two-file run. -/
def evsAB : List Event :=
  [Event.extractStart 0, Event.extractStart 1,
   Event.extractDone 1, Event.extractDone 0]

/-- A lock-acquisition order for the extraction recordings of `filesMix`
that differs from task-creation order. -/
def etasksMix : List FileSpec := [fileExtFail, fileA, fileB]

/-- A different upload completion order for the `filesMix` run. -/
def filesMixPerm : List FileSpec := [fileB, fileA, fileExtFail, fileDup, fileNoId]

/-- The discovery fixture of the specification scenario: three eligible
files and one ineligible one. -/
def sampleTree : List PyTree :=
  [PyTree.file ("d.exe"), PyTree.file ("b.pdf"),
   PyTree.file ("a.txt"), PyTree.file ("c.docx")]

/-- Fixture messages for the prompt-rewriting hook. -/
def msgSys : Message := ⟨"system", "be brief"⟩

/-- A user message already carrying the marker. -/
def msgU1 : Message := ⟨"user", "/no_think hello"⟩

/-- A user message without the marker. -/
def msgU2 : Message := ⟨"user", "world"⟩

/-- Two plain user messages. -/
def msgsAB : List Message := [⟨"user", "a"⟩, ⟨"user", "b"⟩]

/-! ## Helper lemmas -/

theorem isPrefixList_append (p q r : List Char) (h : isPrefixList p q = true) :
    isPrefixList p (q ++ r) = true := by
  induction p generalizing q with
  | nil => simp [isPrefixList]
  | cons a as ih =>
    cases q with
    | nil => simp [isPrefixList] at h
    | cons b bs =>
      simp only [isPrefixList, Bool.and_eq_true, List.cons_append] at h ⊢
      exact ⟨h.1, ih bs h.2⟩

theorem needsNoThink_withNoThink (m : Message) :
    needsNoThink (withNoThink m) = false := by
  have h0 : isPrefixList (("/no_think").data) (("/no_think ").data) = true := by decide
  have h : startsWithStr ("/no_think " ++ m.content) ("/no_think") = true := by
    have h1 := isPrefixList_append (("/no_think").data) (("/no_think ").data)
      m.content.data h0
    simpa [startsWithStr, String.data_append] using h1
  simp [needsNoThink, withNoThink, h]

theorem log_pre_api_call_all_marked (ms : List Message)
    (h : ∀ x ∈ ms, needsNoThink x = false) : log_pre_api_call ms = ms := by
  induction ms with
  | nil => rfl
  | cons m ms ih =>
    have hm := h m (by simp)
    simp only [log_pre_api_call, hm, Bool.false_eq_true, if_false]
    rw [ih (fun x hx => h x (by simp [hx]))]

theorem log_pre_api_call_first (pre : List Message) (m : Message) (post : List Message)
    (hpre : ∀ x ∈ pre, needsNoThink x = false) (hm : needsNoThink m = true) :
    log_pre_api_call (pre ++ m :: post) = pre ++ withNoThink m :: post := by
  induction pre with
  | nil => simp [log_pre_api_call, hm]
  | cons x xs ih =>
    have hx := hpre x (by simp)
    simp only [List.cons_append, log_pre_api_call, hx, Bool.false_eq_true, if_false,
      List.append_eq]
    rw [ih (fun y hy => hpre y (by simp [hy]))]

theorem log_pre_api_call_idem_of_le_one (ms : List Message)
    (h : ms.countP needsNoThink ≤ 1) :
    log_pre_api_call (log_pre_api_call ms) = log_pre_api_call ms := by
  induction ms with
  | nil => rfl
  | cons m ms ih =>
    cases hm : needsNoThink m with
    | false =>
      have hcount : ms.countP needsNoThink ≤ 1 := by
        simpa [List.countP_cons, hm] using h
      simp only [log_pre_api_call, hm, Bool.false_eq_true, if_false]
      rw [ih hcount]
    | true =>
      have hzero : ms.countP needsNoThink = 0 := by
        simp only [List.countP_cons, hm, if_true] at h
        omega
      have hall : ∀ x ∈ ms, needsNoThink x = false := by
        intro x hx
        have hx2 := List.countP_eq_zero.mp hzero x hx
        simpa using hx2
      simp only [log_pre_api_call, hm, if_true]
      simp only [log_pre_api_call, needsNoThink_withNoThink, Bool.false_eq_true, if_false]
      rw [log_pre_api_call_all_marked ms hall]

/-! ## Claim theorems: prompt-rewriting hook, extraction placeholder, graph
reporting, upload classification -/

/-- C10 (amended): on the FAST_LLM path, one application of the message
rewriting in log_pre_api_call prepends the no-think marker to exactly the
first user-role message whose content does not already start with it,
leaving every other message (non-user messages and already-marked user
messages, before or after it) unchanged; a list in which no message needs
the marker is returned unchanged; and the rewriting is idempotent whenever
at most one message needs the marker. -/
theorem log_pre_api_call_characterization :
    (∀ pre m post, (∀ x ∈ pre, needsNoThink x = false) → needsNoThink m = true →
      log_pre_api_call (pre ++ m :: post) = pre ++ withNoThink m :: post)
    ∧ (∀ ms, (∀ x ∈ ms, needsNoThink x = false) → log_pre_api_call ms = ms)
    ∧ (∀ ms, ms.countP needsNoThink ≤ 1 →
      log_pre_api_call (log_pre_api_call ms) = log_pre_api_call ms) :=
  ⟨log_pre_api_call_first, log_pre_api_call_all_marked, log_pre_api_call_idem_of_le_one⟩

/-- C10 counterexample: on two plain user messages, applying the hook twice
differs from applying it once — the second application prepends the marker
to the second user message, because an already-marked user message does not
break the loop.  The claim's idempotence and its at-most-the-first-user-
message targeting both fail here. -/
theorem log_pre_api_call_not_idempotent :
    log_pre_api_call (log_pre_api_call msgsAB) ≠ log_pre_api_call msgsAB := by
  decide

/-- Witness for C10: a concrete list (system message, marked user message,
unmarked user message) satisfying the hypotheses of the characterization;
the rewritten message is the second user message, not the first. -/
theorem log_pre_api_call_characterization_witness :
    ((∀ x ∈ [msgSys, msgU1], needsNoThink x = false) ∧ needsNoThink msgU2 = true)
    ∧ log_pre_api_call ([msgSys, msgU1] ++ msgU2 :: [])
        = [msgSys, msgU1] ++ withNoThink msgU2 :: [] :=
  ⟨⟨by decide, by decide⟩,
    log_pre_api_call_characterization.1 [msgSys, msgU1] msgU2 [] (by decide) (by decide)⟩

/-- C3 (code bug): an extraction response that carries no entity or
relationship counts but looks successful (here: it has a message attribute
and its string form mentions success) is reported as a success with a
fabricated entity count of 1 — the placeholder of lines 266-270 — rather
than zero counts with a counts-unknown flag (no such flag exists in the
result dict). -/
theorem extract_entities_placeholder_one :
    extract_entities (upload_file 0 (ServiceResp.ok (some ("d0"))))
        (ExtResp.ok ⟨none, none, none, true, true⟩)
      = ⟨some ("d0"), 0, "success", 1, 0, none⟩ := by
  rfl

/-- C9 counterexample: when both listing calls raise,
create_knowledge_graph returns a result whose status is created — not
failed as the claim states — because the inner handlers replace the failed
listings with empty lists and the body completes normally. -/
theorem create_knowledge_graph_listing_failure_created :
    (create_knowledge_graph none (ListingResp.raised ("connection refused"))
        (ListingResp.raised ("connection refused"))).status = "created"
    ∧ (create_knowledge_graph none (ListingResp.raised ("connection refused"))
        (ListingResp.raised ("connection refused"))).status ≠ "failed" :=
  ⟨rfl, by decide⟩

/-- C9 (amended): the graph-reporting step is best-effort — failures of the
underlying listing calls are swallowed inside the step, which then returns
status created with zero counts; a failed status arises only when the
step's own body raises; and the step's outcome never changes the overall
workflow status. -/
theorem graph_reporting_best_effort :
    (∀ m1 m2, create_knowledge_graph none (ListingResp.raised m1) (ListingResp.raised m2)
        = ⟨some 0, some 0, "created", none⟩)
    ∧ (∀ g e r, (create_knowledge_graph g e r).status = "failed" ↔ g.isSome = true)
    ∧ (∀ c files g e r g2 e2 r2,
        (run_complete_workflow c files g e r).status
          = (run_complete_workflow c files g2 e2 r2).status) := by
  refine ⟨fun m1 m2 => rfl, fun g e r => ?_, fun c files g e r g2 e2 r2 => ?_⟩
  · cases g with
    | none => simp [create_knowledge_graph]
    | some m => simp [create_knowledge_graph]
  · cases h1 : files.isEmpty <;> cases h2 : c <;>
      cases h3 : (successfulUploads files).isEmpty <;>
      simp [run_complete_workflow, h1, h2, h3]

/-- C4: upload_file is total (no exception escapes: every response is
classified into exactly one of success, skipped, failed) and classifies as
the claim states: a duplicate-content error yields skipped, a success
response with no truthy document id yields failed with the
missing-document-id reason, and any other error yields failed with that
error's message. -/
theorem upload_file_classification :
    (∀ i resp, (upload_file i resp).upload_status = "success"
        ∨ (upload_file i resp).upload_status = "skipped"
        ∨ (upload_file i resp).upload_status = "failed")
    ∧ (∀ i msg, hasSub (("already exists").data) msg.data = true →
        upload_file i (ServiceResp.err msg)
          = ⟨i, "skipped", none, some ("Document already exists")⟩)
    ∧ (∀ i msg, hasSub (("already exists").data) msg.data = false →
        upload_file i (ServiceResp.err msg) = ⟨i, "failed", none, some msg⟩)
    ∧ (∀ i, upload_file i (ServiceResp.ok none)
        = ⟨i, "failed", none, some ("Could not extract document ID")⟩)
    ∧ (∀ i d, truthy (some d) = false →
        upload_file i (ServiceResp.ok (some d))
          = ⟨i, "failed", none, some ("Could not extract document ID")⟩)
    ∧ (∀ i d, truthy (some d) = true →
        upload_file i (ServiceResp.ok (some d)) = ⟨i, "success", some d, none⟩) := by
  refine ⟨fun i resp => ?_, fun i msg h => ?_, fun i msg h => ?_, fun i => ?_,
    fun i d h => ?_, fun i d h => ?_⟩
  · cases resp with
    | ok d =>
      cases ht : truthy d with
      | false => simp [upload_file, ht]
      | true => simp [upload_file, ht]
    | err msg =>
      cases hd : hasSub (("already exists").data) msg.data with
      | false => simp [upload_file, hd]
      | true => simp [upload_file, hd]
  · simp [upload_file, h]
  · simp [upload_file, h]
  · simp [upload_file, truthy]
  · simp [upload_file, h]
  · simp [upload_file, h]

/-- Witness for C4: the duplicate-content error message of the fixture is
recognized and classified as skipped. -/
theorem upload_file_classification_witness :
    (hasSub (("already exists").data)
        (("Document with this content already exists").data) = true)
    ∧ upload_file 2 (ServiceResp.err ("Document with this content already exists"))
        = ⟨2, "skipped", none, some ("Document already exists")⟩ :=
  ⟨by decide,
    upload_file_classification.2.1 2 ("Document with this content already exists")
      (by decide)⟩

/-! ## Fold lemmas for the aggregator state -/

theorem upload_file_file_id (i : Nat) (resp : ServiceResp) :
    (upload_file i resp).file_id = i := by
  cases resp with
  | ok d =>
    cases ht : truthy d with
    | true => simp [upload_file, ht]
    | false => simp [upload_file, ht]
  | err msg =>
    cases hd : hasSub (("already exists").data) msg.data with
    | true => simp [upload_file, hd]
    | false => simp [upload_file, hd]

theorem extract_entities_file_id (u : UploadResult) (resp : ExtResp) :
    (extract_entities u resp).file_id = u.file_id := by
  cases resp <;> rfl

theorem foldl_recordUpload_uploaded (rs : List UploadResult) (init : UploadStats) :
    (rs.foldl recordUpload init).uploaded
      = init.uploaded ++ rs.filter (fun r => r.upload_status == "success") := by
  induction rs generalizing init with
  | nil => simp
  | cons r rs ih =>
    rw [List.foldl_cons, ih]
    cases hs : r.upload_status == "success" with
    | true => simp [recordUpload, hs, List.filter_cons]
    | false =>
      cases hk : r.upload_status == "skipped" with
      | true => simp [recordUpload, hs, hk, List.filter_cons]
      | false => simp [recordUpload, hs, hk, List.filter_cons]

theorem foldl_recordUpload_skipped (rs : List UploadResult) (init : UploadStats) :
    (rs.foldl recordUpload init).skipped
      = init.skipped ++ rs.filter (fun r =>
          !(r.upload_status == "success") && r.upload_status == "skipped") := by
  induction rs generalizing init with
  | nil => simp
  | cons r rs ih =>
    rw [List.foldl_cons, ih]
    cases hs : r.upload_status == "success" with
    | true => simp [recordUpload, hs, List.filter_cons]
    | false =>
      cases hk : r.upload_status == "skipped" with
      | true => simp [recordUpload, hs, hk, List.filter_cons]
      | false => simp [recordUpload, hs, hk, List.filter_cons]

theorem foldl_recordUpload_failed (rs : List UploadResult) (init : UploadStats) :
    (rs.foldl recordUpload init).failed
      = init.failed ++ rs.filter (fun r =>
          !(r.upload_status == "success") && !(r.upload_status == "skipped")) := by
  induction rs generalizing init with
  | nil => simp
  | cons r rs ih =>
    rw [List.foldl_cons, ih]
    cases hs : r.upload_status == "success" with
    | true => simp [recordUpload, hs, List.filter_cons]
    | false =>
      cases hk : r.upload_status == "skipped" with
      | true => simp [recordUpload, hs, hk, List.filter_cons]
      | false => simp [recordUpload, hs, hk, List.filter_cons]

theorem foldl_recordExtraction_successful (rs : List ExtractionResult)
    (init : ExtractionResults) :
    (rs.foldl recordExtraction init).successful
      = init.successful ++ rs.filter (fun r => r.extraction_status == "success") := by
  induction rs generalizing init with
  | nil => simp
  | cons r rs ih =>
    rw [List.foldl_cons, ih]
    cases hs : r.extraction_status == "success" with
    | true => simp [recordExtraction, hs, List.filter_cons]
    | false => simp [recordExtraction, hs, List.filter_cons]

theorem foldl_recordExtraction_failed (rs : List ExtractionResult)
    (init : ExtractionResults) :
    (rs.foldl recordExtraction init).failed
      = init.failed ++ rs.filter (fun r => !(r.extraction_status == "success")) := by
  induction rs generalizing init with
  | nil => simp
  | cons r rs ih =>
    rw [List.foldl_cons, ih]
    cases hs : r.extraction_status == "success" with
    | true => simp [recordExtraction, hs, List.filter_cons]
    | false => simp [recordExtraction, hs, List.filter_cons]

theorem foldl_recordExtraction_entities (rs : List ExtractionResult)
    (init : ExtractionResults) :
    (rs.foldl recordExtraction init).total_entities
      = init.total_entities
        + ((rs.filter (fun r => r.extraction_status == "success")).map
            ExtractionResult.entities_count).sum := by
  induction rs generalizing init with
  | nil => simp
  | cons r rs ih =>
    rw [List.foldl_cons, ih]
    cases hs : r.extraction_status == "success" with
    | true => simp [recordExtraction, hs, List.filter_cons]; omega
    | false => simp [recordExtraction, hs, List.filter_cons]

theorem foldl_recordExtraction_relationships (rs : List ExtractionResult)
    (init : ExtractionResults) :
    (rs.foldl recordExtraction init).total_relationships
      = init.total_relationships
        + ((rs.filter (fun r => r.extraction_status == "success")).map
            ExtractionResult.relationships_count).sum := by
  induction rs generalizing init with
  | nil => simp
  | cons r rs ih =>
    rw [List.foldl_cons, ih]
    cases hs : r.extraction_status == "success" with
    | true => simp [recordExtraction, hs, List.filter_cons]; omega
    | false => simp [recordExtraction, hs, List.filter_cons]

theorem filter_not_length {α : Type} (p : α → Bool) (rs : List α) :
    (rs.filter p).length + (rs.filter (fun r => !(p r))).length = rs.length := by
  induction rs with
  | nil => simp
  | cons r rs ih =>
    cases hp : p r <;> simp [List.filter_cons, hp] <;> omega

theorem three_filter_perm {α : Type} (p q : α → Bool) (rs : List α) :
    (rs.filter p ++ (rs.filter (fun r => !(p r) && q r)
        ++ rs.filter (fun r => !(p r) && !(q r)))).Perm rs := by
  induction rs with
  | nil => simp
  | cons r rs ih =>
    cases hp : p r with
    | true =>
      simp only [List.filter_cons, hp, Bool.not_true, Bool.false_and, if_true, if_false,
        Bool.false_eq_true, List.cons_append]
      exact ih.cons r
    | false =>
      cases hq : q r with
      | true =>
        simp only [List.filter_cons, hp, hq, Bool.not_false, Bool.true_and, if_true,
          if_false, Bool.false_eq_true, List.cons_append]
        exact List.perm_middle.trans (ih.cons r)
      | false =>
        simp only [List.filter_cons, hp, hq, Bool.not_false, Bool.true_and, Bool.not_true,
          if_true, if_false, Bool.false_eq_true, List.cons_append]
        rw [← List.append_assoc]
        refine List.perm_middle.trans ?_
        rw [List.append_assoc]
        exact ih.cons r

/-! ## Sort lemmas for the discovery model -/

theorem insertLe_perm {α : Type} (le : α → α → Bool) (x : α) (l : List α) :
    (insertLe le x l).Perm (x :: l) := by
  induction l with
  | nil => exact List.Perm.refl _
  | cons y ys ih =>
    cases h : le x y with
    | true =>
      simp only [insertLe, h, if_true]
      exact List.Perm.refl _
    | false =>
      simp only [insertLe, h, Bool.false_eq_true, if_false]
      exact (ih.cons y).trans (List.Perm.swap x y ys)

theorem sortLe_perm {α : Type} (le : α → α → Bool) (l : List α) :
    (sortLe le l).Perm l := by
  induction l with
  | nil => exact List.Perm.refl _
  | cons x xs ih => exact (insertLe_perm le x (sortLe le xs)).trans (ih.cons x)

theorem pairwise_insertLe {α : Type} (le : α → α → Bool)
    (htot : ∀ a b, le a b = true ∨ le b a = true)
    (htrans : ∀ a b c, le a b = true → le b c = true → le a c = true)
    (x : α) (l : List α) (h : l.Pairwise (fun a b => le a b = true)) :
    (insertLe le x l).Pairwise (fun a b => le a b = true) := by
  induction l with
  | nil => simp [insertLe]
  | cons y ys ih =>
    rcases List.pairwise_cons.mp h with ⟨hy, hys⟩
    cases hxy : le x y with
    | true =>
      simp only [insertLe, hxy, if_true]
      refine List.pairwise_cons.mpr ⟨?_, h⟩
      intro z hz
      rcases List.mem_cons.mp hz with rfl | hz2
      · exact hxy
      · exact htrans x y z hxy (hy z hz2)
    | false =>
      simp only [insertLe, hxy, Bool.false_eq_true, if_false]
      refine List.pairwise_cons.mpr ⟨?_, ih hys⟩
      intro z hz
      have hz2 := (insertLe_perm le x ys).mem_iff.mp hz
      rcases List.mem_cons.mp hz2 with heq | hz3
      · subst heq
        rcases htot z y with hxy2 | hyx
        · exact absurd hxy2 (by simp [hxy])
        · exact hyx
      · exact hy z hz3

theorem pairwise_sortLe {α : Type} (le : α → α → Bool)
    (htot : ∀ a b, le a b = true ∨ le b a = true)
    (htrans : ∀ a b c, le a b = true → le b c = true → le a c = true)
    (l : List α) :
    (sortLe le l).Pairwise (fun a b => le a b = true) := by
  induction l with
  | nil => simp [sortLe]
  | cons x xs ih => exact pairwise_insertLe le htot htrans x _ ih

theorem charListLe_iff : ∀ (x y : List Char), charListLe x y = true ↔ ¬ List.lt y x
  | [], [] => by
    constructor
    · intro _ h
      cases h
    · intro _
      rfl
  | [], b :: bs => by
    constructor
    · intro _ h
      cases h
    · intro _
      rfl
  | a :: as, [] => by
    constructor
    · intro h
      simp [charListLe] at h
    · intro h
      exact absurd (List.lt.nil a as) h
  | a :: as, b :: bs => by
    rcases lt_trichotomy a b with hab | hab | hab
    · constructor
      · intro _ h
        cases h with
        | head _ _ h2 => exact absurd h2 (lt_asymm hab)
        | tail h1 h2 h3 => exact absurd hab h2
      · intro _
        simp [charListLe, hab]
    · subst hab
      have h1 : ¬ a < a := lt_irrefl a
      constructor
      · intro h hcon
        have h2 : charListLe as bs = true := by simpa [charListLe, h1] using h
        cases hcon with
        | head _ _ h3 => exact absurd h3 h1
        | tail h3 h4 h5 => exact ((charListLe_iff as bs).mp h2) h5
      · intro h
        have h2 : ¬ List.lt bs as := fun h5 => h (List.lt.tail h1 h1 h5)
        simpa [charListLe, h1] using (charListLe_iff as bs).mpr h2
    · have hab2 : ¬ a < b := lt_asymm hab
      constructor
      · intro h
        simp [charListLe, hab2, hab] at h
      · intro h
        exact absurd (List.lt.head _ _ hab) h

theorem pathLeB_iff (a b : List String) : pathLeB a b = true ↔ joinPath a ≤ joinPath b := by
  rw [String.le_iff_toList_le, ← not_lt]
  have h2 := List.lt_iff_lex_lt (joinPath b).data (joinPath a).data
  constructor
  · intro h hcon
    exact ((charListLe_iff (joinPath a).data (joinPath b).data).mp h) (h2.mpr hcon)
  · intro h
    exact (charListLe_iff (joinPath a).data (joinPath b).data).mpr
      (fun hlt => h (h2.mp hlt))

theorem pathLeB_total (a b : List String) : pathLeB a b = true ∨ pathLeB b a = true := by
  rcases le_total (joinPath a) (joinPath b) with h | h
  · exact Or.inl ((pathLeB_iff a b).mpr h)
  · exact Or.inr ((pathLeB_iff b a).mpr h)

theorem pathLeB_trans (a b c : List String) (h1 : pathLeB a b = true)
    (h2 : pathLeB b c = true) : pathLeB a c = true :=
  (pathLeB_iff a c).mpr
    (le_trans ((pathLeB_iff a b).mp h1) ((pathLeB_iff b c).mp h2))

/-! ## Claim theorems: pipeline invariants -/

/-- C6: after the pipeline completes, the uploaded, skipped and failed
buckets partition the discovered files: their sizes sum to the number of
files, their contents are (as a multiset) exactly the per-file upload
results so each file is counted once and none is lost, and the bucket sizes
do not depend on the completion order. -/
theorem upload_counts_partition (files : List FileSpec) :
    ((uploadStatsOf files).uploaded.length + (uploadStatsOf files).skipped.length
        + (uploadStatsOf files).failed.length = files.length)
    ∧ ((uploadStatsOf files).uploaded ++ ((uploadStatsOf files).skipped
        ++ (uploadStatsOf files).failed)).Perm (uploadResults files)
    ∧ (∀ i, (((uploadStatsOf files).uploaded ++ ((uploadStatsOf files).skipped
        ++ (uploadStatsOf files).failed)).map UploadResult.file_id).count i
        = (files.map FileSpec.id).count i)
    ∧ (∀ files2, files2.Perm files →
        (uploadStatsOf files2).uploaded.length = (uploadStatsOf files).uploaded.length
        ∧ (uploadStatsOf files2).skipped.length = (uploadStatsOf files).skipped.length
        ∧ (uploadStatsOf files2).failed.length = (uploadStatsOf files).failed.length) := by
  have hU := foldl_recordUpload_uploaded (uploadResults files) ⟨[], [], []⟩
  have hS := foldl_recordUpload_skipped (uploadResults files) ⟨[], [], []⟩
  have hF := foldl_recordUpload_failed (uploadResults files) ⟨[], [], []⟩
  simp only [List.nil_append] at hU hS hF
  have hperm3 := three_filter_perm (fun r => r.upload_status == "success")
      (fun r => r.upload_status == "skipped") (uploadResults files)
  have hmap : (uploadResults files).map UploadResult.file_id = files.map FileSpec.id := by
    rw [uploadResults, List.map_map]
    exact List.map_congr_left (fun f _ => upload_file_file_id f.id f.uresp)
  refine ⟨?_, ?_, ?_, ?_⟩
  · have hlen := hperm3.length_eq
    simp only [List.length_append] at hlen
    rw [uploadStatsOf, hU, hS, hF]
    have hru : (uploadResults files).length = files.length := by
      rw [uploadResults, List.length_map]
    omega
  · rw [uploadStatsOf, hU, hS, hF]
    exact hperm3
  · intro i
    rw [uploadStatsOf, hU, hS, hF, ← hmap]
    exact (hperm3.map UploadResult.file_id).count_eq i
  · intro files2 hp
    have hru : (uploadResults files2).Perm (uploadResults files) := hp.map _
    refine ⟨?_, ?_, ?_⟩
    · rw [uploadStatsOf, uploadStatsOf, foldl_recordUpload_uploaded,
        foldl_recordUpload_uploaded]
      simp only [List.nil_append]
      exact (hru.filter _).length_eq
    · rw [uploadStatsOf, uploadStatsOf, foldl_recordUpload_skipped,
        foldl_recordUpload_skipped]
      simp only [List.nil_append]
      exact (hru.filter _).length_eq
    · rw [uploadStatsOf, uploadStatsOf, foldl_recordUpload_failed,
        foldl_recordUpload_failed]
      simp only [List.nil_append]
      exact (hru.filter _).length_eq

/-- Witness for C6: on the mixed fixture run, a different completion order
yields the same bucket sizes. -/
theorem upload_counts_partition_witness :
    List.Perm filesMixPerm filesMix
    ∧ ((uploadStatsOf filesMixPerm).uploaded.length
          = (uploadStatsOf filesMix).uploaded.length
      ∧ (uploadStatsOf filesMixPerm).skipped.length
          = (uploadStatsOf filesMix).skipped.length
      ∧ (uploadStatsOf filesMixPerm).failed.length
          = (uploadStatsOf filesMix).failed.length) :=
  ⟨by decide, (upload_counts_partition filesMix).2.2.2 filesMixPerm (by decide)⟩

/-- C7: the aggregated totals equal the sums of the per-document counts over
the successful extraction outcomes only, and failed extraction outcomes
carry zero counts (so they contribute nothing to either total), for every
lock-acquisition order of the extraction recordings. -/
theorem extraction_totals_from_success_only (etasks : List FileSpec) :
    ((extractionResultsOf etasks).total_entities
      = ((extractionResultsOf etasks).successful.map
          ExtractionResult.entities_count).sum)
    ∧ ((extractionResultsOf etasks).total_relationships
      = ((extractionResultsOf etasks).successful.map
          ExtractionResult.relationships_count).sum)
    ∧ (∀ r ∈ (extractionResultsOf etasks).failed,
        r.entities_count = 0 ∧ r.relationships_count = 0) := by
  have hE := foldl_recordExtraction_entities
      (etasks.map (fun f => extract_entities (upload_file f.id f.uresp) f.eresp))
      ⟨[], [], 0, 0⟩
  have hR := foldl_recordExtraction_relationships
      (etasks.map (fun f => extract_entities (upload_file f.id f.uresp) f.eresp))
      ⟨[], [], 0, 0⟩
  have hSucc := foldl_recordExtraction_successful
      (etasks.map (fun f => extract_entities (upload_file f.id f.uresp) f.eresp))
      ⟨[], [], 0, 0⟩
  have hFail := foldl_recordExtraction_failed
      (etasks.map (fun f => extract_entities (upload_file f.id f.uresp) f.eresp))
      ⟨[], [], 0, 0⟩
  simp only [List.nil_append] at hE hR hSucc hFail
  refine ⟨?_, ?_, ?_⟩
  · rw [extractionResultsOf, hE, hSucc]
    simp
  · rw [extractionResultsOf, hR, hSucc]
    simp
  · intro r hr
    rw [extractionResultsOf, hFail] at hr
    rcases List.mem_filter.mp hr with ⟨hmem, hns⟩
    rcases List.mem_map.mp hmem with ⟨f, hf, heq⟩
    cases he : f.eresp with
    | ok rr =>
      rw [he] at heq
      rw [← heq] at hns
      simp [extract_entities] at hns
    | raised msg =>
      rw [he] at heq
      rw [← heq]
      simp [extract_entities]

/-- Witness for C7: in a two-file run whose second extraction raises, the
failed record is in the failed bucket and carries zero counts. -/
theorem extraction_totals_from_success_only_witness :
    (extract_entities (upload_file fileExtFail.id fileExtFail.uresp) fileExtFail.eresp
        ∈ (extractionResultsOf [fileA, fileExtFail]).failed)
    ∧ ((extract_entities (upload_file fileExtFail.id fileExtFail.uresp)
          fileExtFail.eresp).entities_count = 0
      ∧ (extract_entities (upload_file fileExtFail.id fileExtFail.uresp)
          fileExtFail.eresp).relationships_count = 0) :=
  ⟨by decide,
    (extraction_totals_from_success_only [fileA, fileExtFail]).2.2 _ (by decide)⟩

/-- C2: the run does not report completion before every scheduled extraction
has resolved: the recorded successful and failed extraction outcomes
together number exactly the successful uploads, every successful upload has
a recorded extraction outcome for its file, and in every admissible trace
the summary is the last event, preceded by a terminal extraction event for
every created task. -/
theorem run_awaits_all_extractions (files etasks : List FileSpec) (evs : List Event)
    (hperm : etasks.Perm (successfulUploads files))
    (hevs : ValidExtrEvents ((successfulUploads files).map FileSpec.id) evs) :
    ((extractionResultsOf etasks).successful.length
        + (extractionResultsOf etasks).failed.length
        = (successfulUploads files).length)
    ∧ (∀ f ∈ successfulUploads files,
        ∃ r ∈ (extractionResultsOf etasks).successful
            ++ (extractionResultsOf etasks).failed,
          r.file_id = f.id)
    ∧ ((pipelineTrace files evs).getLast? = some Event.summary)
    ∧ (∀ i ∈ (successfulUploads files).map FileSpec.id,
        Event.extractDone i ∈ (pipelineTrace files evs).dropLast) := by
  have hSucc := foldl_recordExtraction_successful
      (etasks.map (fun f => extract_entities (upload_file f.id f.uresp) f.eresp))
      ⟨[], [], 0, 0⟩
  have hFail := foldl_recordExtraction_failed
      (etasks.map (fun f => extract_entities (upload_file f.id f.uresp) f.eresp))
      ⟨[], [], 0, 0⟩
  simp only [List.nil_append] at hSucc hFail
  refine ⟨?_, ?_, ?_, ?_⟩
  · rw [extractionResultsOf, hSucc, hFail, filter_not_length, List.length_map]
    exact hperm.length_eq
  · intro f hf
    have hfe : f ∈ etasks := hperm.mem_iff.mpr hf
    have hrmem : extract_entities (upload_file f.id f.uresp) f.eresp
        ∈ etasks.map (fun f2 => extract_entities (upload_file f2.id f2.uresp) f2.eresp) :=
      List.mem_map.mpr ⟨f, hfe, rfl⟩
    refine ⟨extract_entities (upload_file f.id f.uresp) f.eresp, ?_, ?_⟩
    · rw [extractionResultsOf, hSucc, hFail]
      cases hs : (extract_entities (upload_file f.id f.uresp) f.eresp).extraction_status
          == "success" with
      | true => exact List.mem_append_left _ (List.mem_filter.mpr ⟨hrmem, hs⟩)
      | false =>
        exact List.mem_append_right _ (List.mem_filter.mpr ⟨hrmem, by simp [hs]⟩)
    · rw [extract_entities_file_id, upload_file_file_id]
  · rw [pipelineTrace, ← List.append_assoc]
    exact List.getLast?_concat _
  · intro i hi
    have hdone : i ∈ doneIds evs := hevs.dones.mem_iff.mpr hi
    rcases List.mem_filterMap.mp hdone with ⟨e, hemem, hei⟩
    have he2 : Event.extractDone i ∈ evs := by
      cases e with
      | uploadDone j => simp [doneIds] at hei
      | extractStart j => simp [doneIds] at hei
      | extractDone j =>
        simp only [Option.some.injEq] at hei
        subst hei
        exact hemem
      | summary => simp [doneIds] at hei
    rw [pipelineTrace, ← List.append_assoc, List.dropLast_concat]
    exact List.mem_append_right _ he2

/-- Witness for C2: the mixed fixture run with a sequential extraction
interleaving; the recorded outcomes number exactly the successful
uploads. -/
theorem run_awaits_all_extractions_witness :
    ValidExtrEvents ((successfulUploads filesMix).map FileSpec.id) evsMix
    ∧ ((extractionResultsOf (successfulUploads filesMix)).successful.length
        + (extractionResultsOf (successfulUploads filesMix)).failed.length
        = (successfulUploads filesMix).length) :=
  ⟨⟨by decide, by decide, by decide⟩,
    (run_awaits_all_extractions filesMix (successfulUploads filesMix) evsMix
      (List.Perm.refl _) ⟨by decide, by decide, by decide⟩).1⟩

/-- C5: exactly one extraction attempt exists per successful upload (the
multiset of extraction-task file ids equals the multiset of
successful-upload file ids, so skipped and failed uploads get none), an
upload is successful exactly when its outcome is a success with a truthy
document id, and in every admissible trace a file's extraction starts only
after its own upload has completed. -/
theorem extraction_iff_upload_success (files etasks : List FileSpec) (evs : List Event)
    (hperm : etasks.Perm (successfulUploads files))
    (hevs : ValidExtrEvents ((successfulUploads files).map FileSpec.id) evs) :
    (∀ i, (etasks.map FileSpec.id).count i
        = ((successfulUploads files).map FileSpec.id).count i)
    ∧ (∀ f ∈ files, (f ∈ successfulUploads files ↔
        ((upload_file f.id f.uresp).upload_status = "success"
          ∧ truthy (upload_file f.id f.uresp).document_id = true)))
    ∧ (∀ n i, (pipelineTrace files evs)[n]? = some (Event.extractStart i) →
        Event.uploadDone i ∈ (pipelineTrace files evs).take n) := by
  refine ⟨fun i => (hperm.map FileSpec.id).count_eq i, fun f hf => ?_, fun n i hn => ?_⟩
  · constructor
    · intro hmem
      have h2 := (List.mem_filter.mp hmem).2
      simpa using h2
    · rintro ⟨h3, h4⟩
      refine List.mem_filter.mpr ⟨hf, ?_⟩
      simp [h3, h4]
  · rw [pipelineTrace] at hn
    rcases Nat.lt_or_ge n (uploadEvents files).length with hlt | hge
    · rw [List.getElem?_append, if_pos hlt] at hn
      rw [uploadEvents, List.getElem?_map] at hn
      cases hfq : files[n]? with
      | none => rw [hfq] at hn; simp at hn
      | some f2 => rw [hfq] at hn; simp at hn
    · rw [List.getElem?_append_right hge] at hn
      have hmem0 : Event.extractStart i ∈ evs ++ [Event.summary] := List.getElem?_mem hn
      have hmem : Event.extractStart i ∈ evs := by
        rcases List.mem_append.mp hmem0 with h | h
        · exact h
        · simp at h
      have hstart : i ∈ startIds evs :=
        List.mem_filterMap.mpr ⟨Event.extractStart i, hmem, rfl⟩
      have htask : i ∈ (successfulUploads files).map FileSpec.id :=
        hevs.starts.mem_iff.mp hstart
      rcases List.mem_map.mp htask with ⟨f2, hfsucc, hfid⟩
      have hffiles : f2 ∈ files := List.mem_of_mem_filter hfsucc
      have hud : Event.uploadDone i ∈ uploadEvents files :=
        List.mem_map.mpr ⟨f2, hffiles, by rw [hfid]⟩
      rw [pipelineTrace, List.take_append_eq_append_take, List.take_of_length_le hge]
      exact List.mem_append_left _ hud

/-- Witness for C5: a lock order differing from task-creation order is a
permutation of the successful uploads and preserves the per-file attempt
count (file 2 is the skipped duplicate and has none). -/
theorem extraction_iff_upload_success_witness :
    List.Perm etasksMix (successfulUploads filesMix)
    ∧ ((etasksMix.map FileSpec.id).count 2
        = ((successfulUploads filesMix).map FileSpec.id).count 2) :=
  ⟨by decide,
    (extraction_iff_upload_success filesMix etasksMix evsMix (by decide)
      ⟨by decide, by decide, by decide⟩).1 2⟩

/-- C8: discovery fails with the not-found error when the path does not
exist and the not-a-directory error when it is not a directory; otherwise
the returned list is sorted by the joined path, and contains (as a
multiset, hence exactly once each) precisely the regular files under the
root whose extension passes the allow-list — so the output is determined by
the tree alone and two runs over an unchanged tree return identical
lists. -/
theorem discover_files_contract :
    (∀ p, discover_files p RootFS.missing
        = Except.error (DiscoverError.fileNotFound ("Folder not found: " ++ p)))
    ∧ (∀ p, discover_files p RootFS.plainFile
        = Except.error (DiscoverError.valueError ("Path is not a directory: " ++ p)))
    ∧ (∀ p cs l, discover_files p (RootFS.dir cs) = Except.ok l →
        List.Pairwise (fun a b => joinPath a ≤ joinPath b) l
        ∧ l.Perm (((rglobList [] cs).filter isEligible).map Prod.fst)
        ∧ (∀ q, q ∈ l ↔ ((q, true) ∈ rglobList [] cs ∧ isSupported q = true))) := by
  refine ⟨fun p => rfl, fun p => rfl, fun p cs l hl => ?_⟩
  have hl2 : sortLe pathLeB (((rglobList [] cs).filter isEligible).map Prod.fst) = l := by
    simpa [discover_files] using hl
  subst hl2
  refine ⟨?_, sortLe_perm _ _, ?_⟩
  · have hp := pairwise_sortLe pathLeB pathLeB_total pathLeB_trans
      (((rglobList [] cs).filter isEligible).map Prod.fst)
    exact hp.imp (fun hab => (pathLeB_iff _ _).mp hab)
  · intro q
    rw [(sortLe_perm pathLeB _).mem_iff]
    constructor
    · intro hq
      rcases List.mem_map.mp hq with ⟨pb, hpb, hfst⟩
      rcases pb with ⟨q2, b2⟩
      rcases List.mem_filter.mp hpb with ⟨hmem, helig⟩
      have helig2 : b2 = true ∧ isSupported q2 = true := by
        simpa [isEligible] using helig
      rcases helig2 with ⟨hb, hsup⟩
      subst hb
      simp only at hfst
      subst hfst
      exact ⟨hmem, hsup⟩
    · rintro ⟨hmem, hsup⟩
      refine List.mem_map.mpr ⟨(q, true), List.mem_filter.mpr ⟨hmem, ?_⟩, rfl⟩
      simp [isEligible, hsup]

/-- Witness for C8: the specification scenario — three eligible files and
one ineligible one — returns exactly the three eligible paths, sorted. -/
theorem discover_files_contract_witness :
    (discover_files ("test") (RootFS.dir sampleTree)
        = Except.ok [["a.txt"], ["b.pdf"], ["c.docx"]])
    ∧ List.Pairwise (fun a b => joinPath a ≤ joinPath b)
        [["a.txt"], ["b.pdf"], ["c.docx"]]
    ∧ List.Perm [["a.txt"], ["b.pdf"], ["c.docx"]]
        (((rglobList [] sampleTree).filter isEligible).map Prod.fst) :=
  ⟨rfl,
    (discover_files_contract.2.2 ("test") sampleTree [["a.txt"], ["b.pdf"], ["c.docx"]]
      rfl).1,
    (discover_files_contract.2.2 ("test") sampleTree [["a.txt"], ["b.pdf"], ["c.docx"]]
      rfl).2.1⟩

/-- C1 (code bug): in the two-file run where both uploads succeed and file 0
completes first, whenever file 0's extraction starts — at any position, in
any extraction-phase interleaving — file 1's upload-completion event already
lies in the trace prefix: the orchestrator only creates coroutine objects in
the as_completed loop and first schedules them in the gather after the
loop, so no extraction overlaps the upload batch, contradicting the claimed
pipelining (and the docstring of upload_files_concurrently). -/
theorem extraction_only_after_upload_batch (evs : List Event) (n : Nat)
    (hn : (pipelineTrace [fileA, fileB] evs)[n]? = some (Event.extractStart 0)) :
    Event.uploadDone 1 ∈ (pipelineTrace [fileA, fileB] evs).take n := by
  match n with
  | 0 => simp [pipelineTrace, uploadEvents, fileA, fileB] at hn
  | 1 => simp [pipelineTrace, uploadEvents, fileA, fileB] at hn
  | Nat.succ (Nat.succ k) =>
    have he : pipelineTrace [fileA, fileB] evs
        = Event.uploadDone 0 :: (Event.uploadDone 1 :: (evs ++ [Event.summary])) := rfl
    rw [he, List.take_succ_cons, List.take_succ_cons]
    simp

/-- Witness for C1: with a concrete interleaving, position 2 of the trace is
the start of file 0's extraction and file 1's upload completion precedes
it. -/
theorem extraction_only_after_upload_batch_witness :
    ((pipelineTrace [fileA, fileB] evsAB)[2]? = some (Event.extractStart 0))
    ∧ Event.uploadDone 1 ∈ (pipelineTrace [fileA, fileB] evsAB).take 2 :=
  ⟨rfl, extraction_only_after_upload_batch evsAB 2 rfl⟩
